import Mathlib

/-!
Shallow embedding of the financial-assistance backend.

Sources embedded:
- app/schemas/financial.py (pydantic schemas, modelled as validators on a dict)
- app/services/gemini_service.py (fallback classification, amount extraction,
  deterministic fallback advice template)
- app/services/financial_service.py (the three handlers over an explicit
  database state; SQLAlchemy commits are modelled as atomic state updates,
  with a commit flag selecting success or rollback)
- app/services/pinecone_service.py (hash-seeded pseudo-embedding, with the
  hash and the seeded PRNG stream as explicit function parameters)

Numeric amounts are modelled as rationals: every concrete amount in the
claims is exactly representable, so no float rounding occurs on them.
Strings are ASCII in all claims; Char.toLower matches Python str.lower there.
-/

namespace FinAssist

/-- InputType enum from app/models/financial.py and app/schemas/financial.py. -/
inductive InputType where
  | FINANCIAL_COMMITMENT
  | BALANCE_UPDATE
  | QUESTION
deriving DecidableEq, Repr

/-- Python text.lower() (ASCII range; all claim inputs are ASCII). -/
def pyLower (s : String) : String :=
  String.mk (s.toList.map Char.toLower)

/-- Structural substring scan over character lists. -/
def hasSubstrAux (needle : List Char) : List Char → Bool
  | [] => needle.isEmpty
  | c :: cs => needle.isPrefixOf (c :: cs) || hasSubstrAux needle cs

/-- Python substring test: needle in hay. -/
def containsSubstr (hay needle : String) : Bool :=
  hasSubstrAux needle.toList hay.toList

/-- Python any(word in hay for word in kws). -/
def containsAny (hay : String) (kws : List String) : Bool :=
  kws.any (fun w => containsSubstr hay w)

/-- Scanner state for re.findall with pattern digits, optional dot digits.
After commas are stripped the thousands-separator alternative of the pattern
in gemini_service.py line 107 can never match, so the effective pattern is
one digit run optionally followed by a dot and a second digit run. -/
inductive NumScan where
  | out
  | intp (ds : List Char)
  | dot (ds : List Char)
  | frac (ds : List Char)

/-- Left-to-right leftmost non-overlapping matches of the effective pattern,
as produced by re.findall on the comma-stripped text. -/
def findNumbersAux : List Char → NumScan → List String
  | [], .out => []
  | [], .intp ds => [String.mk ds.reverse]
  | [], .dot ds => [String.mk ds.reverse]
  | [], .frac ds => [String.mk ds.reverse]
  | c :: cs, .out =>
      if c.isDigit then findNumbersAux cs (.intp [c]) else findNumbersAux cs .out
  | c :: cs, .intp ds =>
      if c.isDigit then findNumbersAux cs (.intp (c :: ds))
      else if c = '.' then findNumbersAux cs (.dot ds)
      else String.mk ds.reverse :: findNumbersAux cs .out
  | c :: cs, .dot ds =>
      if c.isDigit then findNumbersAux cs (.frac (c :: '.' :: ds))
      else String.mk ds.reverse :: findNumbersAux cs .out
  | c :: cs, .frac ds =>
      if c.isDigit then findNumbersAux cs (.frac (c :: ds))
      else String.mk ds.reverse :: findNumbersAux cs .out

/-- Python text.replace with comma replaced by the empty string. -/
def stripCommas (s : String) : String :=
  String.mk (s.toList.filter (fun c => c ≠ ','))

/-- Value of a digit run. -/
def digitsVal (ds : List Char) : ℕ :=
  ds.foldl (fun n c => 10 * n + (c.toNat - 48)) 0

/-- Python float() on a matched numeric string (digit run, optionally a dot
and a second digit run), as an exact rational. -/
def parseDecimal (s : String) : ℚ :=
  let l := s.toList
  let ip := l.takeWhile (fun c => c ≠ '.')
  match l.dropWhile (fun c => c ≠ '.') with
  | '.' :: fs => (digitsVal ip : ℚ) + (digitsVal fs : ℚ) / ((10 : ℚ) ^ fs.length)
  | _ => (digitsVal ip : ℚ)

/-- GeminiService extract amount helper, gemini_service.py lines 105 to 110:
strip commas, find all numeric substrings, return the last as a float, else 0. -/
def extract_amount (text : String) : ℚ :=
  match (findNumbersAux (stripCommas text).toList .out).getLast? with
  | some n => parseDecimal n
  | none => 0

/-- Balance-indicating vocabulary, gemini_service.py line 73. -/
def balanceKeywords : List String := ["balance", "have", "now", "current"]

/-- Question-indicating vocabulary, gemini_service.py line 82. -/
def questionKeywords : List String := ["can i", "should i", "afford", "?", "how much"]

/-- The extracted-data dict. Missing keys are none (for pydantic Optional
fields a missing key and an explicit null behave identically). -/
structure PyDict where
  description : Option String := none
  amount : Option ℚ := none
  date : Option ℤ := none
  balance : Option ℚ := none
  question : Option String := none
  target_amount : Option ℚ := none
deriving DecidableEq, Repr

/-- ClassifiedInput schema from app/schemas/financial.py. -/
structure ClassifiedInput where
  input_type : InputType
  confidence : ℚ
  extracted_data : PyDict
deriving DecidableEq, Repr

/-- Python expression amount if amount else 0: a float is falsy exactly when
it is zero, so the value is unchanged but the source spells it this way. -/
def pyOrZero (a : ℚ) : ℚ := if a ≠ 0 then a else 0

/-- GeminiService fallback classification, gemini_service.py lines 68 to 103. -/
def fallback_classification (text : String) : ClassifiedInput :=
  let text_lower := pyLower text
  if containsAny text_lower balanceKeywords then
    { input_type := .BALANCE_UPDATE, confidence := 7/10,
      extracted_data := { balance := some (pyOrZero (extract_amount text)) } }
  else if containsAny text_lower questionKeywords then
    { input_type := .QUESTION, confidence := 7/10,
      extracted_data := { question := some text,
                          target_amount := some (extract_amount text) } }
  else
    { input_type := .FINANCIAL_COMMITMENT, confidence := 6/10,
      extracted_data := { description := some text,
                          amount := some (pyOrZero (extract_amount text)),
                          date := none } }

/-- Python f-string format with two decimals, as used for all money amounts.
Exact on amounts that are a whole number of cents, which covers every amount
any claim formats; sub-cent rounding ties are not exercised by any claim. -/
def fmtMoney (q : ℚ) : String :=
  let cents : ℤ := (100 * q.num + (q.den : ℤ) / 2) / (q.den : ℤ)
  let sign := if cents < 0 then "-" else ""
  let n := cents.natAbs
  sign ++ toString (n / 100) ++ "." ++ (if n % 100 < 10 then "0" else "") ++ toString (n % 100)

/-- CommitmentData schema, app/schemas/financial.py lines 24 to 27:
description is a plain str field (no length constraint), amount is a float
with gt 0, date is optional. Validation of a dict, as pydantic performs it
when the handler runs CommitmentData on the extracted data. -/
structure CommitmentData where
  description : String
  amount : ℚ
  date : Option ℤ
deriving DecidableEq, Repr

/-- Pydantic validation for CommitmentData. -/
def CommitmentData.validate (d : PyDict) : Except String CommitmentData :=
  match d.description, d.amount with
  | some desc, some a =>
      if 0 < a then .ok { description := desc, amount := a, date := d.date }
      else .error "amount: input should be greater than 0"
  | _, _ => .error "field required"

/-- BalanceData schema, app/schemas/financial.py lines 30 to 31: balance is a
float with ge 0. -/
structure BalanceData where
  balance : ℚ
deriving DecidableEq, Repr

/-- Pydantic validation for BalanceData. -/
def BalanceData.validate (d : PyDict) : Except String BalanceData :=
  match d.balance with
  | some b =>
      if 0 ≤ b then .ok { balance := b }
      else .error "balance: input should be greater than or equal to 0"
  | none => .error "field required"

/-- QuestionData schema, app/schemas/financial.py lines 34 to 36. -/
structure QuestionData where
  question : String
  target_amount : Option ℚ
deriving DecidableEq, Repr

/-- Pydantic validation for QuestionData. -/
def QuestionData.validate (d : PyDict) : Except String QuestionData :=
  match d.question with
  | some q => .ok { question := q, target_amount := d.target_amount }
  | none => .error "field required"

/-- Structured data of a ProcessedResult, one variant per handler. -/
inductive ResultData where
  | commitment (id : ℕ) (description : String) (amount : ℚ) (date : Option ℤ)
  | balanceUpd (id : ℕ) (balance : ℚ)
  | questionRes (id : ℕ) (question : String) (current_balance : ℚ)
      (upcoming_count : ℕ) (relevant_count : ℕ)
deriving DecidableEq, Repr

/-- ProcessedResult schema, app/schemas/financial.py lines 39 to 43. -/
structure ProcessedResult where
  success : Bool
  message : String
  data : Option ResultData := none
  advice : Option String := none
deriving DecidableEq, Repr

/-- FinancialRecord row, app/models/financial.py lines 13 to 37. Timestamps
are abstract integers; created-at ordering is the list order of events. -/
structure FinancialRecord where
  id : ℕ
  user_id : String
  input_type : InputType
  description : Option String := none
  amount : Option ℚ := none
  commitment_date : Option ℤ := none
  balance : Option ℚ := none
  question_text : Option String := none
  raw_input : String
  vector_id : Option String := none
deriving DecidableEq, Repr

/-- UserBalance row, app/models/financial.py lines 40 to 45. -/
structure UserBalance where
  user_id : String
  current_balance : ℚ
  last_updated : ℤ
deriving DecidableEq, Repr

/-- Relational database state: append-only event rows in insertion order
(ids from an autoincrement counter), plus the per-user balance rows. -/
structure DB where
  events : List FinancialRecord
  balances : List UserBalance
  nextId : ℕ
deriving DecidableEq, Repr

/-- Fresh database. -/
def DB.empty : DB := { events := [], balances := [], nextId := 1 }

/-- The first balance row of the user, as the filter-first query in
financial_service.py lines 125 to 127 and 163 to 165. -/
def lookupBalance (db : DB) (user : String) : Option UserBalance :=
  db.balances.find? (fun ub => ub.user_id == user)

/-- Update-or-create of the balance row, financial_service.py lines 129 to
137. The update targets rows by the user-id primary key. -/
def upsertBalance (db : DB) (user : String) (bal : ℚ) (now : ℤ) : DB :=
  match lookupBalance db user with
  | some _ =>
      { db with balances := db.balances.map (fun ub =>
          if ub.user_id == user
          then { ub with current_balance := bal, last_updated := now } else ub) }
  | none =>
      { db with balances :=
          db.balances ++ [{ user_id := user, current_balance := bal, last_updated := now }] }

/-- The amount read from an upcoming-commitment dict with default 0, as
c.get with default 0 in gemini_service.py line 121. -/
def dictAmount (d : PyDict) : ℚ := d.amount.getD 0

/-- The affordable branch of the fallback advice, gemini_service.py line 158. -/
def affordMsg (available_funds : ℚ) : String :=
  "You have $" ++ fmtMoney available_funds ++
    " available after upcoming commitments. This purchase appears affordable, but ensure you maintain an emergency buffer."

/-- The wait branch of the fallback advice, gemini_service.py line 156. -/
def waitMsg (current_balance total_commitments available_funds target : ℚ) : String :=
  "Based on your balance of $" ++ fmtMoney current_balance ++
    " and upcoming commitments of $" ++ fmtMoney total_commitments ++
    ", you have $" ++ fmtMoney available_funds ++
    " available. The $" ++ fmtMoney target ++
    " purchase exceeds your available funds. Consider waiting until after your commitments are fulfilled."

/-- Deterministic fallback advice, gemini_service.py lines 153 to 158. The
Python condition is the truthiness test on target_amount followed by the
comparison with available funds, so target 0 or absent takes the affordable
branch. -/
def generate_advice_fallback (current_balance : ℚ) (upcoming : List PyDict)
    (target_amount : Option ℚ) : String :=
  let total_commitments := (upcoming.map dictAmount).sum
  let available_funds := current_balance - total_commitments
  match target_amount with
  | some t =>
      if t ≠ 0 ∧ available_funds < t then
        waitMsg current_balance total_commitments available_funds t
      else affordMsg available_funds
  | none => affordMsg available_funds

/-- GeminiService generate advice, gemini_service.py lines 112 to 158: the
model call either returns a text (some) or raises (none), in which case the
deterministic fallback runs. -/
def generate_advice (llm : Option String) (current_balance : ℚ)
    (upcoming : List PyDict) (target_amount : Option ℚ) : String :=
  match llm with
  | some a => a
  | none => generate_advice_fallback current_balance upcoming target_amount

/-- The commitment row the handler inserts, financial_service.py lines 62
to 69. -/
def mkCommitmentRecord (db : DB) (user raw : String) (cd : CommitmentData) :
    FinancialRecord :=
  { id := db.nextId, user_id := user, input_type := .FINANCIAL_COMMITMENT,
    description := some cd.description, amount := some cd.amount,
    commitment_date := cd.date, raw_input := raw }

/-- Commitment handler, financial_service.py lines 50 to 102. The first
commit persists the event (commit_ok false models a storage failure there,
which propagates and rolls the insert back). The try block around the
Pinecone upsert and the vector-id commit is modelled by mirror_ok: on
success the freshly inserted row (unique autoincrement id) gets its
vector id; on failure the exception is swallowed and the row stays as
committed. Either way the handler returns success. -/
def handle_commitment (db : DB) (user raw : String) (d : PyDict)
    (commit_ok mirror_ok : Bool) : DB × Except String ProcessedResult :=
  match CommitmentData.validate d with
  | .error e => (db, .error e)
  | .ok cd =>
    let record := mkCommitmentRecord db user raw cd
    if commit_ok then
      let record2 := if mirror_ok
        then { record with vector_id := some (user ++ "_" ++ toString record.id) }
        else record
      let db1 : DB := { db with events := db.events ++ [record2], nextId := db.nextId + 1 }
      (db1, .ok { success := true,
                  message := "Added commitment: " ++ cd.description ++ " ($" ++ fmtMoney cd.amount ++ ")",
                  data := some (.commitment record.id cd.description cd.amount cd.date) })
    else (db, .error "storage error")

/-- The balance-update row the handler inserts, financial_service.py lines
116 to 121. -/
def mkBalanceRecord (db : DB) (user raw : String) (bd : BalanceData) :
    FinancialRecord :=
  { id := db.nextId, user_id := user, input_type := .BALANCE_UPDATE,
    balance := some bd.balance, raw_input := raw }

/-- Balance handler, financial_service.py lines 104 to 149: stage the event
insert and the balance upsert, then one commit covering both. commit_ok
false models a storage failure of that single transaction: nothing is
persisted and the error propagates. -/
def handle_balance_update (db : DB) (user raw : String) (d : PyDict)
    (now : ℤ) (commit_ok : Bool) : DB × Except String ProcessedResult :=
  match BalanceData.validate d with
  | .error e => (db, .error e)
  | .ok bd =>
    let record := mkBalanceRecord db user raw bd
    if commit_ok then
      let db1 : DB := { db with events := db.events ++ [record], nextId := db.nextId + 1 }
      let db2 : DB := upsertBalance db1 user bd.balance now
      (db2, .ok { success := true,
                  message := "Balance updated to $" ++ fmtMoney bd.balance,
                  data := some (.balanceUpd record.id bd.balance) })
    else (db, .error "storage error")

/-- The filter of the upcoming-commitments query, financial_service.py lines
170 to 174. SQL three-valued logic: a NULL commitment_date fails the
comparison with now, so the row is excluded. -/
def upcomingFilter (user : String) (now : ℤ) (e : FinancialRecord) : Bool :=
  e.user_id == user && e.input_type == .FINANCIAL_COMMITMENT &&
    (match e.commitment_date with
     | some d => decide (now ≤ d)
     | none => false)

/-- Comparison used for the order-by on commitment_date (every row the
filter keeps has a date). -/
def dateLe (a b : FinancialRecord) : Bool :=
  decide (a.commitment_date.getD 0 ≤ b.commitment_date.getD 0)

/-- Insert into a date-sorted list. -/
def insertByDate (r : FinancialRecord) : List FinancialRecord → List FinancialRecord
  | [] => [r]
  | x :: xs => if dateLe r x then r :: x :: xs else x :: insertByDate r xs

/-- Stable sort by commitment_date, modelling the SQL order-by. -/
def sortByDate : List FinancialRecord → List FinancialRecord
  | [] => []
  | x :: xs => insertByDate x (sortByDate xs)

/-- The upcoming-commitments query: filter, order by date, limit 10. -/
def upcomingQuery (db : DB) (user : String) (now : ℤ) : List FinancialRecord :=
  (sortByDate (db.events.filter (upcomingFilter user now))).take 10

/-- The question row the handler inserts, financial_service.py lines 205
to 210. -/
def mkQuestionRecord (db : DB) (user raw : String) (qd : QuestionData) :
    FinancialRecord :=
  { id := db.nextId, user_id := user, input_type := .QUESTION,
    question_text := some qd.question, raw_input := raw }

/-- Question handler, financial_service.py lines 151 to 226: authoritative
balance read (0 when no row), upcoming commitments from SQL, advisory
vector results only as a count (relevant_count, 0 when the vector query
fails), advice via the generator with deterministic fallback, then the
question event is appended and committed. -/
def handle_question (db : DB) (user raw : String) (d : PyDict) (now : ℤ)
    (llm : Option String) (relevant_count : ℕ) (commit_ok : Bool) :
    DB × Except String ProcessedResult :=
  match QuestionData.validate d with
  | .error e => (db, .error e)
  | .ok qd =>
    let current_balance : ℚ := match lookupBalance db user with
      | some ub => ub.current_balance
      | none => 0
    let upcoming := upcomingQuery db user now
    let upcoming_list : List PyDict := upcoming.map (fun u =>
      { description := u.description, amount := u.amount, date := u.commitment_date })
    let advice := generate_advice llm current_balance upcoming_list qd.target_amount
    let record := mkQuestionRecord db user raw qd
    if commit_ok then
      let db1 : DB := { db with events := db.events ++ [record], nextId := db.nextId + 1 }
      (db1, .ok { success := true, message := "Question answered",
                  data := some (.questionRes record.id qd.question current_balance
                    upcoming_list.length relevant_count),
                  advice := some advice })
    else (db, .error "storage error")

/-- External effects of one processed request: the wall clock, whether the
relational commits succeed, whether the Pinecone mirror write succeeds, the
primary classifier output (none when unavailable or unparsable), the advice
generator output (none when it raises), and the size of the advisory vector
query result. -/
structure Effects where
  now : ℤ := 0
  commit_ok : Bool := true
  mirror_ok : Bool := true
  llmClass : Option ClassifiedInput := none
  llmAdvice : Option String := none
  relevant_count : ℕ := 0
deriving Repr

/-- FinancialService process_input, financial_service.py lines 17 to 48:
classify (primary path result, or the deterministic fallback), then route
on the input type to exactly one handler. -/
def process_input (db : DB) (user text : String) (fx : Effects) :
    DB × Except String ProcessedResult :=
  let classification := match fx.llmClass with
    | some c => c
    | none => fallback_classification text
  match classification.input_type with
  | .FINANCIAL_COMMITMENT =>
      handle_commitment db user text classification.extracted_data fx.commit_ok fx.mirror_ok
  | .BALANCE_UPDATE =>
      handle_balance_update db user text classification.extracted_data fx.now fx.commit_ok
  | .QUESTION =>
      handle_question db user text classification.extracted_data fx.now
        fx.llmAdvice fx.relevant_count fx.commit_ok

/-- The history endpoint ordering: the user rows, most recent first, with a
limit, app/api/financial.py. -/
def get_history (db : DB) (user : String) (lim : ℕ) : List FinancialRecord :=
  ((db.events.filter (fun e => e.user_id == user)).reverse).take lim

/-- One request of a run: its user, raw text and external effects. -/
structure StepInput where
  user : String
  text : String
  fx : Effects

/-- The database after one request (a raised error leaves it unchanged). -/
def stepDB (db : DB) (i : StepInput) : DB :=
  (process_input db i.user i.text i.fx).1

/-- The database after a sequence of requests against a fresh store. -/
def runInputs (l : List StepInput) : DB :=
  l.foldl stepDB DB.empty

/-- The rows counted as BALANCE_UPDATE events of the user. -/
def buFilter (user : String) (e : FinancialRecord) : Bool :=
  e.user_id == user && e.input_type == .BALANCE_UPDATE

/-- The balance amount of the most recent BALANCE_UPDATE event of the user,
0 when there is none. -/
def lastBalanceAmount (evs : List FinancialRecord) (user : String) : ℚ :=
  match (evs.filter (buFilter user)).getLast? with
  | some e => e.balance.getD 0
  | none => 0

/-- The current balance as every reader of UserBalance sees it: the value of
the row, or 0 when the user has no row (financial_service.py line 167). -/
def currentBalanceOf (db : DB) (user : String) : ℚ :=
  match lookupBalance db user with
  | some ub => ub.current_balance
  | none => 0

/-- Pseudo-embedding generator, pinecone_service.py lines 101 to 126. The
SHA-256 hash and the seeded normal sampler are abstract deterministic
functions passed as parameters: sha256Int text is the hash digest as an
integer, and randn seed i is the i-th draw of the numpy stream after
seeding with seed. The numpy global RNG state is threaded explicitly as
rng; the function reseeds with the text hash modulo 2 to the 32, draws 768
values, and divides by the Euclidean norm. The incoming state is discarded
by the reseeding, which is what makes the result deterministic in the
text. -/
noncomputable def embeddingVec (sha256Int : String → ℕ)
    (randn : ℕ → ℕ → ℝ) (text : String) : List ℝ :=
  let seed := sha256Int text % 2 ^ 32
  let raw : Fin 768 → ℝ := fun i => randn seed i.val
  let nrm : ℝ := Real.sqrt (∑ i : Fin 768, raw i ^ 2)
  List.ofFn (fun i : Fin 768 => raw i / nrm)

/-- The full embedding call: the returned vector and the RNG state it leaves
behind (the seed derived from the text, which replaced the incoming state). -/
noncomputable def generate_embedding (sha256Int : String → ℕ)
    (randn : ℕ → ℕ → ℝ) (rng : ℕ) (text : String) : List ℝ × ℕ :=
  let _ := rng
  (embeddingVec sha256Int randn text, sha256Int text % 2 ^ 32)

/-- Squared Euclidean norm of a vector given as a list. -/
noncomputable def normSqR (l : List ℝ) : ℝ := (l.map (fun x => x ^ 2)).sum

/-! ## Helper lemmas -/

theorem findNumbersAux_no_digit (cs : List Char) (h : ∀ c ∈ cs, c.isDigit = false) :
    findNumbersAux cs NumScan.out = [] := by
  induction cs with
  | nil => rfl
  | cons c cs ih =>
      have hc : c.isDigit = false := h c (by simp)
      have h2 : ∀ x ∈ cs, x.isDigit = false := fun x hx => h x (by simp [hx])
      simp [findNumbersAux, hc, ih h2]

theorem extract_amount_no_digit (t : String) (h : ∀ c ∈ t.toList, c.isDigit = false) :
    extract_amount t = 0 := by
  have h2 : ∀ c ∈ (stripCommas t).toList, c.isDigit = false := by
    intro c hc
    have hm : c ∈ t.toList.filter (fun x => x ≠ ',') := hc
    exact h c (List.mem_of_mem_filter hm)
  have h3 : findNumbersAux (stripCommas t).data NumScan.out = [] :=
    findNumbersAux_no_digit _ h2
  simp [extract_amount, h3]

theorem hasSubstrAux_iff (n h : List Char) : hasSubstrAux n h = true ↔ n <:+: h := by
  induction h with
  | nil => simp [hasSubstrAux, List.isEmpty_iff]
  | cons c cs ih =>
      simp [hasSubstrAux, ih, List.isPrefixOf_iff_prefix, List.infix_cons_iff]

theorem string_toList_append (a b : String) : (a ++ b).toList = a.toList ++ b.toList := by
  cases a
  cases b
  rfl

theorem containsSubstr_refl (m : String) : containsSubstr m m = true := by
  rw [containsSubstr, hasSubstrAux_iff]

theorem containsSubstr_append_left (a b m : String) (h : containsSubstr b m = true) :
    containsSubstr (a ++ b) m = true := by
  rw [containsSubstr, hasSubstrAux_iff] at h ⊢
  rw [string_toList_append]
  exact h.trans (List.suffix_append _ _).isInfix

theorem containsSubstr_append_right (a b m : String) (h : containsSubstr a m = true) :
    containsSubstr (a ++ b) m = true := by
  rw [containsSubstr, hasSubstrAux_iff] at h ⊢
  rw [string_toList_append]
  exact h.trans (List.prefix_append _ _).isInfix

theorem find?_cons_pos {α : Type} (p : α → Bool) (a : α) (l : List α) (h : p a = true) :
    (a :: l).find? p = some a := by
  simp [List.find?_cons, h]

theorem find?_cons_neg {α : Type} (p : α → Bool) (a : α) (l : List α) (h : p a = false) :
    (a :: l).find? p = l.find? p := by
  simp [List.find?_cons, h]

theorem find?_map_keyed (g : UserBalance → UserBalance)
    (hg : ∀ z, (g z).user_id = z.user_id) (l : List UserBalance) (user : String) :
    (l.map (fun z => if z.user_id == user then g z else z)).find?
      (fun z => z.user_id == user) =
    (l.find? (fun z => z.user_id == user)).map g := by
  induction l with
  | nil => rfl
  | cons x xs ih =>
      rw [List.map_cons]
      cases hx : (x.user_id == user) with
      | true =>
          have hp : ((g x).user_id == user) = true := by rw [hg x]; exact hx
          rw [show (if (true = true) then g x else x) = g x from if_pos rfl,
              find?_cons_pos (fun z => z.user_id == user) (g x) _ hp,
              find?_cons_pos (fun z => z.user_id == user) x _ hx]
          rfl
      | false =>
          rw [show (if (false = true) then g x else x) = x from if_neg (by simp),
              find?_cons_neg (fun z => z.user_id == user) x _ hx,
              find?_cons_neg (fun z => z.user_id == user) x _ hx, ih]

theorem find?_map_keyed_other (g : UserBalance → UserBalance)
    (hg : ∀ z, (g z).user_id = z.user_id) (l : List UserBalance) (user w : String)
    (hne : w ≠ user) :
    (l.map (fun z => if z.user_id == user then g z else z)).find?
      (fun z => z.user_id == w) =
    l.find? (fun z => z.user_id == w) := by
  induction l with
  | nil => rfl
  | cons x xs ih =>
      rw [List.map_cons]
      cases hx : (x.user_id == user) with
      | true =>
          have hxu : x.user_id = user := by simpa using hx
          have hxw : (x.user_id == w) = false := by
            rw [hxu]
            exact beq_eq_false_iff_ne.mpr fun hh => hne hh.symm
          have hgw : ((g x).user_id == w) = false := by rw [hg x]; exact hxw
          rw [show (if (true = true) then g x else x) = g x from if_pos rfl,
              find?_cons_neg (fun z => z.user_id == w) (g x) _ hgw,
              find?_cons_neg (fun z => z.user_id == w) x _ hxw, ih]
      | false =>
          rw [show (if (false = true) then g x else x) = x from if_neg (by simp)]
          cases hw : (x.user_id == w) with
          | true =>
              rw [find?_cons_pos (fun z => z.user_id == w) x _ hw,
                  find?_cons_pos (fun z => z.user_id == w) x _ hw]
          | false =>
              rw [find?_cons_neg (fun z => z.user_id == w) x _ hw,
                  find?_cons_neg (fun z => z.user_id == w) x _ hw, ih]

theorem lookupBalance_upsert_self (db : DB) (user : String) (b : ℚ) (now : ℤ) :
    lookupBalance (upsertBalance db user b now) user =
      some { user_id := user, current_balance := b, last_updated := now } := by
  unfold upsertBalance
  cases hf : lookupBalance db user with
  | some ub =>
      simp only [lookupBalance] at hf ⊢
      rw [find?_map_keyed (fun z => { z with current_balance := b, last_updated := now })
            (fun z => rfl) db.balances user, hf]
      have hu : ub.user_id = user := by simpa using List.find?_some hf
      cases ub
      simp_all
  | none =>
      simp only [lookupBalance] at hf ⊢
      rw [List.find?_append, hf]
      simp

theorem lookupBalance_upsert_other (db : DB) (user w : String) (b : ℚ) (now : ℤ)
    (hne : w ≠ user) :
    lookupBalance (upsertBalance db user b now) w = lookupBalance db w := by
  unfold upsertBalance
  cases hf : lookupBalance db user with
  | some ub =>
      simp only [lookupBalance]
      exact find?_map_keyed_other (fun z => { z with current_balance := b, last_updated := now })
        (fun z => rfl) db.balances user w hne
  | none =>
      simp only [lookupBalance] at hf ⊢
      rw [List.find?_append]
      have hw : (({ user_id := user, current_balance := b, last_updated := now } :
          UserBalance).user_id == w) = false :=
        beq_eq_false_iff_ne.mpr fun hh => hne hh.symm
      simp [List.find?_cons, hw]

theorem upsertBalance_events (db : DB) (user : String) (b : ℚ) (now : ℤ) :
    (upsertBalance db user b now).events = db.events := by
  unfold upsertBalance
  cases hf : lookupBalance db user <;> rfl

theorem lastBalanceAmount_append_pos (evs : List FinancialRecord) (r : FinancialRecord)
    (u : String) (h : buFilter u r = true) :
    lastBalanceAmount (evs ++ [r]) u = r.balance.getD 0 := by
  simp [lastBalanceAmount, List.filter_append, h, List.getLast?_concat]

theorem lastBalanceAmount_append_neg (evs : List FinancialRecord) (r : FinancialRecord)
    (u : String) (h : buFilter u r = false) :
    lastBalanceAmount (evs ++ [r]) u = lastBalanceAmount evs u := by
  simp [lastBalanceAmount, List.filter_append, h]

theorem validate_date (d : PyDict) (cd : CommitmentData)
    (h : CommitmentData.validate d = Except.ok cd) : cd.date = d.date := by
  unfold CommitmentData.validate at h
  cases hD : d.description with
  | none =>
      rw [hD] at h
      cases hA : d.amount <;> rw [hA] at h <;> simp at h
  | some desc =>
      rw [hD] at h
      cases hA : d.amount with
      | none =>
          rw [hA] at h
          simp at h
      | some a =>
          rw [hA] at h
          have h2 : (if 0 < a
              then Except.ok { description := desc, amount := a, date := d.date }
              else (Except.error "amount: input should be greater than 0" :
                Except String CommitmentData)) = Except.ok cd := h
          by_cases ha : 0 < a
          · rw [if_pos ha] at h2
            cases h2
            rfl
          · rw [if_neg ha] at h2
            simp at h2

theorem mem_insertByDate (a r : FinancialRecord) (l : List FinancialRecord) :
    a ∈ insertByDate r l ↔ a = r ∨ a ∈ l := by
  induction l with
  | nil => simp [insertByDate]
  | cons x xs ih =>
      by_cases hd : dateLe r x = true
      · simp [insertByDate, hd]
      · simp only [insertByDate, if_neg hd, List.mem_cons, ih]
        tauto

theorem mem_sortByDate (a : FinancialRecord) (l : List FinancialRecord) :
    a ∈ sortByDate l ↔ a ∈ l := by
  induction l with
  | nil => simp [sortByDate]
  | cons x xs ih => simp [sortByDate, mem_insertByDate, ih]

theorem currentBalanceOf_congr (db' db : DB) (h : db'.balances = db.balances)
    (u : String) : currentBalanceOf db' u = currentBalanceOf db u := by
  simp [currentBalanceOf, lookupBalance, h]

theorem lastBalanceAmount_congr (evs' evs : List FinancialRecord) (u : String)
    (h : evs'.filter (buFilter u) = evs.filter (buFilter u)) :
    lastBalanceAmount evs' u = lastBalanceAmount evs u := by
  simp [lastBalanceAmount, h]

theorem handle_commitment_balances (db : DB) (user raw : String) (d : PyDict)
    (co mo : Bool) : (handle_commitment db user raw d co mo).1.balances = db.balances := by
  cases hv : CommitmentData.validate d with
  | error e => simp [handle_commitment, hv]
  | ok cd => cases co <;> simp [handle_commitment, hv]

theorem handle_commitment_buFilter (db : DB) (user raw : String) (d : PyDict)
    (co mo : Bool) (u : String) :
    (handle_commitment db user raw d co mo).1.events.filter (buFilter u) =
      db.events.filter (buFilter u) := by
  cases hv : CommitmentData.validate d with
  | error e => simp [handle_commitment, hv]
  | ok cd =>
      cases co with
      | false => simp [handle_commitment, hv]
      | true =>
          cases mo <;>
            simp [handle_commitment, hv, List.filter_append, buFilter, mkCommitmentRecord]

theorem handle_question_balances (db : DB) (user raw : String) (d : PyDict)
    (now : ℤ) (llm : Option String) (rc : ℕ) (co : Bool) :
    (handle_question db user raw d now llm rc co).1.balances = db.balances := by
  cases hv : QuestionData.validate d with
  | error e => simp [handle_question, hv]
  | ok qd => cases co <;> simp [handle_question, hv]

theorem handle_question_buFilter (db : DB) (user raw : String) (d : PyDict)
    (now : ℤ) (llm : Option String) (rc : ℕ) (co : Bool) (u : String) :
    (handle_question db user raw d now llm rc co).1.events.filter (buFilter u) =
      db.events.filter (buFilter u) := by
  cases hv : QuestionData.validate d with
  | error e => simp [handle_question, hv]
  | ok qd =>
      cases co with
      | false => simp [handle_question, hv]
      | true =>
          simp [handle_question, hv, List.filter_append, buFilter, mkQuestionRecord]

theorem handle_commitment_preserves (db : DB) (user raw : String) (d : PyDict)
    (co mo : Bool)
    (h : ∀ u, currentBalanceOf db u = lastBalanceAmount db.events u) (u : String) :
    currentBalanceOf (handle_commitment db user raw d co mo).1 u =
      lastBalanceAmount (handle_commitment db user raw d co mo).1.events u :=
  calc currentBalanceOf (handle_commitment db user raw d co mo).1 u
      = currentBalanceOf db u :=
        currentBalanceOf_congr _ db (handle_commitment_balances db user raw d co mo) u
    _ = lastBalanceAmount db.events u := h u
    _ = lastBalanceAmount (handle_commitment db user raw d co mo).1.events u :=
        (lastBalanceAmount_congr _ _ u (handle_commitment_buFilter db user raw d co mo u)).symm

theorem handle_question_preserves (db : DB) (user raw : String) (d : PyDict)
    (now : ℤ) (llm : Option String) (rc : ℕ) (co : Bool)
    (h : ∀ u, currentBalanceOf db u = lastBalanceAmount db.events u) (u : String) :
    currentBalanceOf (handle_question db user raw d now llm rc co).1 u =
      lastBalanceAmount (handle_question db user raw d now llm rc co).1.events u :=
  calc currentBalanceOf (handle_question db user raw d now llm rc co).1 u
      = currentBalanceOf db u :=
        currentBalanceOf_congr _ db (handle_question_balances db user raw d now llm rc co) u
    _ = lastBalanceAmount db.events u := h u
    _ = lastBalanceAmount (handle_question db user raw d now llm rc co).1.events u :=
        (lastBalanceAmount_congr _ _ u
          (handle_question_buFilter db user raw d now llm rc co u)).symm

theorem handle_balance_update_preserves (db : DB) (user raw : String) (d : PyDict)
    (now : ℤ) (co : Bool)
    (h : ∀ u, currentBalanceOf db u = lastBalanceAmount db.events u) (u : String) :
    currentBalanceOf (handle_balance_update db user raw d now co).1 u =
      lastBalanceAmount (handle_balance_update db user raw d now co).1.events u := by
  cases hv : BalanceData.validate d with
  | error e =>
      simp only [handle_balance_update, hv]
      exact h u
  | ok bd =>
      cases co with
      | false =>
          simp only [handle_balance_update, hv, Bool.false_eq_true, if_false]
          exact h u
      | true =>
          have hst : (handle_balance_update db user raw d now true).1 =
              upsertBalance (DB.mk (db.events ++ [mkBalanceRecord db user raw bd])
                db.balances (db.nextId + 1)) user bd.balance now := by
            simp [handle_balance_update, hv, upsertBalance]
          rw [hst, upsertBalance_events]
          by_cases hu : u = user
          · subst hu
            have hl := lookupBalance_upsert_self
              (DB.mk (db.events ++ [mkBalanceRecord db u raw bd])
                db.balances (db.nextId + 1)) u bd.balance now
            have hfilter : buFilter u (mkBalanceRecord db u raw bd) = true := by
              simp [buFilter, mkBalanceRecord]
            rw [lastBalanceAmount_append_pos _ _ _ hfilter]
            simp only [currentBalanceOf]
            rw [hl]
            simp [mkBalanceRecord]
          · have hl := lookupBalance_upsert_other
              (DB.mk (db.events ++ [mkBalanceRecord db user raw bd])
                db.balances (db.nextId + 1)) user u bd.balance now hu
            have hbeq : (user == u) = false :=
              beq_eq_false_iff_ne.mpr fun hh => hu hh.symm
            have hfilter : buFilter u (mkBalanceRecord db user raw bd) = false := by
              simp [buFilter, mkBalanceRecord, hbeq]
            rw [lastBalanceAmount_append_neg _ _ _ hfilter]
            have hcb : currentBalanceOf (upsertBalance
                (DB.mk (db.events ++ [mkBalanceRecord db user raw bd])
                  db.balances (db.nextId + 1)) user bd.balance now) u =
                currentBalanceOf db u := by
              simp only [currentBalanceOf]
              rw [hl]
              rfl
            rw [hcb]
            exact h u

theorem stepDB_preserves (db : DB) (i : StepInput)
    (h : ∀ u, currentBalanceOf db u = lastBalanceAmount db.events u) (u : String) :
    currentBalanceOf (stepDB db i) u = lastBalanceAmount (stepDB db i).events u := by
  rw [stepDB]
  simp only [process_input]
  cases hct : (match i.fx.llmClass with
      | some c => c
      | none => fallback_classification i.text).input_type with
  | FINANCIAL_COMMITMENT => exact handle_commitment_preserves _ _ _ _ _ _ h u
  | BALANCE_UPDATE => exact handle_balance_update_preserves _ _ _ _ _ _ h u
  | QUESTION => exact handle_question_preserves _ _ _ _ _ _ _ _ h u

/-! ## Claims -/

/-- C6: fallback amount extraction strips comma separators, finds the
numeric substrings and returns the last as a number, 0 when none exist:
the two reference inputs evaluate as stated, and any text without a digit
yields 0. -/
theorem extract_amount_spec :
    extract_amount "dinner Saturday 2500" = 2500
  ∧ extract_amount "balance is 18,000.50" = 18000.50
  ∧ ∀ t : String, (∀ c ∈ t.toList, c.isDigit = false) → extract_amount t = 0 := by
  refine ⟨rfl, ?_, fun t h => extract_amount_no_digit t h⟩
  show parseDecimal "18000.50" = 18000.50
  have h1 : ("18000.50".toList.takeWhile (fun c => c ≠ '.')) = ['1', '8', '0', '0', '0'] := rfl
  have h2 : ("18000.50".toList.dropWhile (fun c => c ≠ '.')) = '.' :: ['5', '0'] := rfl
  have h3 : digitsVal ['1', '8', '0', '0', '0'] = 18000 := rfl
  have h4 : digitsVal ['5', '0'] = 50 := rfl
  simp only [parseDecimal, h1, h2, h3, h4]
  norm_num

/-- C6 witness: a digitless input taken through the theorem. -/
theorem extract_amount_spec_witness :
    (∀ c ∈ "no digits here".toList, c.isDigit = false) ∧ extract_amount "no digits here" = 0 :=
  ⟨by decide, extract_amount_spec.2.2 "no digits here" (by decide)⟩

/-- C3: for every text the fallback classifier returns exactly one of the
three kinds, with the balance vocabulary checked first (BALANCE_UPDATE,
confidence 0.7), then the question vocabulary (QUESTION, confidence 0.7),
else FINANCIAL_COMMITMENT with confidence 0.6, the full text as description
and the extracted amount (or 0) as amount. -/
theorem fallback_classification_total (text : String) :
    ((fallback_classification text).input_type = InputType.BALANCE_UPDATE ∨
     (fallback_classification text).input_type = InputType.QUESTION ∨
     (fallback_classification text).input_type = InputType.FINANCIAL_COMMITMENT)
  ∧ (containsAny (pyLower text) balanceKeywords = true →
      fallback_classification text =
        { input_type := InputType.BALANCE_UPDATE, confidence := 7/10,
          extracted_data := { balance := some (pyOrZero (extract_amount text)) } })
  ∧ (containsAny (pyLower text) balanceKeywords = false →
     containsAny (pyLower text) questionKeywords = true →
      fallback_classification text =
        { input_type := InputType.QUESTION, confidence := 7/10,
          extracted_data := { question := some text,
                              target_amount := some (extract_amount text) } })
  ∧ (containsAny (pyLower text) balanceKeywords = false →
     containsAny (pyLower text) questionKeywords = false →
      fallback_classification text =
        { input_type := InputType.FINANCIAL_COMMITMENT, confidence := 6/10,
          extracted_data := { description := some text,
                              amount := some (pyOrZero (extract_amount text)),
                              date := none } }) := by
  cases hb : containsAny (pyLower text) balanceKeywords <;>
    cases hq : containsAny (pyLower text) questionKeywords <;>
      simp [fallback_classification, hb, hq]

/-- C3 witness: a plain commitment text taken through the default branch. -/
theorem fallback_classification_total_witness :
    containsAny (pyLower "dinner on Friday 2500") balanceKeywords = false
  ∧ (fallback_classification "dinner on Friday 2500").input_type =
      InputType.FINANCIAL_COMMITMENT := by
  refine ⟨rfl, ?_⟩
  rw [(fallback_classification_total "dinner on Friday 2500").2.2.2 rfl rfl]

/-- C8 counterexample: for question-classified text with no digits the
fallback payload carries target_amount 0.0, a number, not an absent value. -/
theorem question_target_counterexample :
    (fallback_classification "can i afford it").input_type = InputType.QUESTION
  ∧ (fallback_classification "can i afford it").extracted_data.target_amount = some 0
  ∧ ((fallback_classification "can i afford it").extracted_data.target_amount).isSome = true :=
  ⟨rfl, rfl, rfl⟩

/-- C8 amended: the fallback QUESTION payload is the full original text as
question and the extracted amount as target_amount, which is 0 (not absent)
when the text has no numeric substring. -/
theorem question_payload_amended (text : String)
    (hb : containsAny (pyLower text) balanceKeywords = false)
    (hq : containsAny (pyLower text) questionKeywords = true) :
    (fallback_classification text).extracted_data.question = some text
  ∧ (fallback_classification text).extracted_data.target_amount = some (extract_amount text)
  ∧ ((∀ c ∈ text.toList, c.isDigit = false) →
      (fallback_classification text).extracted_data.target_amount = some 0) := by
  refine ⟨?_, ?_, fun h => ?_⟩
  · simp [fallback_classification, hb, hq]
  · simp [fallback_classification, hb, hq]
  · simp [fallback_classification, hb, hq, extract_amount_no_digit text h]

/-- C8 witness: the question text taken through the theorem. -/
theorem question_payload_amended_witness :
    containsAny (pyLower "can i afford it") questionKeywords = true
  ∧ (fallback_classification "can i afford it").extracted_data.question =
      some "can i afford it" :=
  ⟨rfl, (question_payload_amended "can i afford it" rfl rfl).1⟩

set_option maxRecDepth 4000 in
/-- C2 counterexample: for balance 10000, upcoming commitments 2000 and
1500 and target 8000 the fallback advice recommends waiting and states the
available funds 6500.00 and the target 8000.00, but the shortfall amount
1500 is never stated: the digit string 1500 appears nowhere in the advice.
Further, a target of 0 that is given and exceeds the available funds
(balance 100, commitment 200, so available is -100 and below the target)
still takes the affordable branch, because the truthiness test on the
target treats a given 0.0 like an absent one. -/
theorem advice_shortfall_counterexample :
    generate_advice_fallback 10000
      [{ description := some "flight", amount := some 2000 },
       { description := some "rent", amount := some 1500 }] (some 8000) =
      "Based on your balance of $10000.00 and upcoming commitments of $3500.00, you have $6500.00 available. The $8000.00 purchase exceeds your available funds. Consider waiting until after your commitments are fulfilled."
  ∧ containsSubstr (generate_advice_fallback 10000
      [{ description := some "flight", amount := some 2000 },
       { description := some "rent", amount := some 1500 }] (some 8000))
      "Consider waiting" = true
  ∧ containsSubstr (generate_advice_fallback 10000
      [{ description := some "flight", amount := some 2000 },
       { description := some "rent", amount := some 1500 }] (some 8000))
      "$6500.00" = true
  ∧ containsSubstr (generate_advice_fallback 10000
      [{ description := some "flight", amount := some 2000 },
       { description := some "rent", amount := some 1500 }] (some 8000))
      "$8000.00" = true
  ∧ containsSubstr (generate_advice_fallback 10000
      [{ description := some "flight", amount := some 2000 },
       { description := some "rent", amount := some 1500 }] (some 8000))
      "1500" = false
  ∧ generate_advice_fallback 100
      [{ description := some "tv", amount := some 200 }] (some 0) =
      "You have $-100.00 available after upcoming commitments. This purchase appears affordable, but ensure you maintain an emergency buffer."
  ∧ containsSubstr (generate_advice_fallback 100
      [{ description := some "tv", amount := some 200 }] (some 0))
      "Consider waiting" = false := by
  have hsum : ((([{ description := some "flight", amount := some 2000 },
      { description := some "rent", amount := some 1500 }] : List PyDict)).map dictAmount).sum
        = (3500 : ℚ) := by
    simp [dictAmount]
    norm_num
  have key : generate_advice_fallback 10000
      [{ description := some "flight", amount := some 2000 },
       { description := some "rent", amount := some 1500 }] (some 8000)
        = waitMsg 10000 3500 6500 8000 := by
    simp only [generate_advice_fallback, hsum]
    norm_num
  have hsum2 : (([{ description := some "tv", amount := some 200 }] :
      List PyDict).map dictAmount).sum = (200 : ℚ) := by
    simp [dictAmount]
  have key2 : generate_advice_fallback 100
      [{ description := some "tv", amount := some 200 }] (some 0)
        = affordMsg (-100) := by
    simp only [generate_advice_fallback, hsum2]
    norm_num
  refine ⟨?_, ?_, ?_, ?_, ?_, ?_, ?_⟩ <;> first
    | (rw [key]; decide)
    | (rw [key2]; decide)

/-- C2 amended: on generator failure the fallback computes available as
current balance minus the sum of upcoming amounts. If a nonzero target is
given and exceeds available, it produces the wait template, which recommends
waiting and states the balance, total commitments, available funds and
target, but not the shortfall amount itself. In every other case (no target,
a zero target, or a target not exceeding available) it produces the
affordable template, which states the available funds and recommends
maintaining an emergency buffer. -/
theorem advice_fallback_amended (bal t : ℚ) (upcoming : List PyDict) :
    (t ≠ 0 → bal - (upcoming.map dictAmount).sum < t →
      generate_advice_fallback bal upcoming (some t) =
        waitMsg bal ((upcoming.map dictAmount).sum)
          (bal - (upcoming.map dictAmount).sum) t
      ∧ containsSubstr (generate_advice_fallback bal upcoming (some t))
          "Consider waiting" = true
      ∧ containsSubstr (generate_advice_fallback bal upcoming (some t))
          (fmtMoney (bal - (upcoming.map dictAmount).sum)) = true
      ∧ containsSubstr (generate_advice_fallback bal upcoming (some t))
          (fmtMoney t) = true)
  ∧ (¬(t ≠ 0 ∧ bal - (upcoming.map dictAmount).sum < t) →
      generate_advice_fallback bal upcoming (some t) =
        affordMsg (bal - (upcoming.map dictAmount).sum))
  ∧ generate_advice_fallback bal upcoming none =
      affordMsg (bal - (upcoming.map dictAmount).sum)
  ∧ containsSubstr (affordMsg (bal - (upcoming.map dictAmount).sum))
      "emergency buffer" = true
  ∧ containsSubstr (affordMsg (bal - (upcoming.map dictAmount).sum))
      (fmtMoney (bal - (upcoming.map dictAmount).sum)) = true := by
  refine ⟨fun ht hlt => ?_, fun hng => ?_, ?_, ?_, ?_⟩
  · have key : generate_advice_fallback bal upcoming (some t) =
        waitMsg bal ((upcoming.map dictAmount).sum)
          (bal - (upcoming.map dictAmount).sum) t := by
      simp only [generate_advice_fallback]
      rw [if_pos ⟨ht, hlt⟩]
    refine ⟨key, ?_, ?_, ?_⟩ <;> rw [key] <;> simp only [waitMsg]
    · apply containsSubstr_append_left
      rfl
    · apply containsSubstr_append_right
      apply containsSubstr_append_right
      apply containsSubstr_append_right
      apply containsSubstr_append_left
      exact containsSubstr_refl _
    · apply containsSubstr_append_right
      apply containsSubstr_append_left
      exact containsSubstr_refl _
  · simp only [generate_advice_fallback]
    rw [if_neg hng]
  · simp only [generate_advice_fallback]
  · simp only [affordMsg]
    apply containsSubstr_append_left
    rfl
  · simp only [affordMsg]
    apply containsSubstr_append_right
    apply containsSubstr_append_left
    exact containsSubstr_refl _

/-- C2 witness: a concrete wait-branch instance and a concrete zero-target
afford-branch instance taken through the theorem. -/
theorem advice_fallback_amended_witness :
    ((10000 : ℚ) - (([] : List PyDict).map dictAmount).sum < 20000)
  ∧ containsSubstr (generate_advice_fallback 10000 [] (some 20000))
      "Consider waiting" = true
  ∧ ¬((0 : ℚ) ≠ 0 ∧ (100 : ℚ) -
      (([{ description := some "tv", amount := some 200 }] : List PyDict).map dictAmount).sum < 0)
  ∧ generate_advice_fallback 100
      [{ description := some "tv", amount := some 200 }] (some 0) =
      affordMsg ((100 : ℚ) -
        (([{ description := some "tv", amount := some 200 }] : List PyDict).map dictAmount).sum) := by
  have hlt : (10000 : ℚ) - (([] : List PyDict).map dictAmount).sum < 20000 := by
    simp
    decide
  have hng : ¬((0 : ℚ) ≠ 0 ∧ (100 : ℚ) -
      (([{ description := some "tv", amount := some 200 }] :
        List PyDict).map dictAmount).sum < 0) :=
    fun h => h.1 rfl
  exact ⟨hlt, ((advice_fallback_amended 10000 20000 []).1 (by decide) hlt).2.1, hng,
    (advice_fallback_amended 100 0
      [{ description := some "tv", amount := some 200 }]).2.1 hng⟩

/-- C7 counterexample: the payload with an empty description and amount 100
passes validation (the schema puts no constraint on the description string),
so the handler succeeds and appends the event instead of surfacing a
validation error. -/
theorem empty_description_counterexample :
    CommitmentData.validate { description := some "", amount := some 100 } =
      Except.ok { description := "", amount := 100, date := none }
  ∧ (handle_commitment DB.empty "u1" "pay 100"
      { description := some "", amount := some 100 } true true).2 =
      Except.ok { success := true, message := "Added commitment:  ($100.00)",
                  data := some (.commitment 1 "" 100 none) }
  ∧ (handle_commitment DB.empty "u1" "pay 100"
      { description := some "", amount := some 100 } true true).1.events.length = 1 :=
  ⟨rfl, rfl, rfl⟩

/-- C7 amended: the handler rejects a payload with a missing description, a
missing amount or a non-positive amount — the validation error is returned
and no event is appended — but an empty description is accepted (shown by
the counterexample), since the schema constrains only the amount. -/
theorem commitment_validation_amended (db : DB) (user raw : String) (d : PyDict)
    (co mo : Bool) :
    (d.description = none →
      ∃ e, handle_commitment db user raw d co mo = (db, Except.error e))
  ∧ (d.amount = none →
      ∃ e, handle_commitment db user raw d co mo = (db, Except.error e))
  ∧ (∀ a : ℚ, d.amount = some a → a ≤ 0 →
      ∃ e, handle_commitment db user raw d co mo = (db, Except.error e)) := by
  refine ⟨fun hd => ?_, fun ha => ?_, fun a ha hle => ?_⟩
  · refine ⟨"field required", ?_⟩
    cases hA : d.amount <;> simp [handle_commitment, CommitmentData.validate, hd, hA]
  · refine ⟨"field required", ?_⟩
    cases hD : d.description <;> simp [handle_commitment, CommitmentData.validate, ha, hD]
  · cases hD : d.description with
    | none =>
        exact ⟨"field required",
          by simp [handle_commitment, CommitmentData.validate, hD, ha]⟩
    | some desc =>
        exact ⟨"amount: input should be greater than 0",
          by simp [handle_commitment, CommitmentData.validate, hD, ha, not_lt.mpr hle]⟩

/-- C7 witness: a negative amount taken through the theorem. -/
theorem commitment_validation_amended_witness :
    ((-5 : ℚ) ≤ 0)
  ∧ (handle_commitment DB.empty "u1" "spend -5"
      { description := some "gift", amount := some (-5) } true true).1 = DB.empty := by
  obtain ⟨e, he⟩ := (commitment_validation_amended DB.empty "u1" "spend -5"
      { description := some "gift", amount := some (-5) } true true).2.2 (-5) rfl (by decide)
  exact ⟨by decide, by rw [he]⟩

/-- C4: when the Semantic Index mirror step fails after the Ledger commit,
the commitment handler still returns success with the persisted id and
payload, the COMMITMENT event stays appended to the store, and it is
retrievable via history as the most recent entry; the index failure never
fails or rolls back the Ledger write. -/
theorem commitment_mirror_failure_isolated (db : DB) (user raw : String)
    (d : PyDict) (cd : CommitmentData)
    (hv : CommitmentData.validate d = Except.ok cd) :
    (handle_commitment db user raw d true false).2 =
      Except.ok { success := true,
                  message := "Added commitment: " ++ cd.description ++ " ($" ++
                    fmtMoney cd.amount ++ ")",
                  data := some (.commitment db.nextId cd.description cd.amount cd.date) }
  ∧ (handle_commitment db user raw d true false).1.events =
      db.events ++ [mkCommitmentRecord db user raw cd]
  ∧ (get_history (handle_commitment db user raw d true false).1 user 50).head? =
      some (mkCommitmentRecord db user raw cd)
  ∧ mkCommitmentRecord db user raw cd ∈
      get_history (handle_commitment db user raw d true false).1 user 50 := by
  have h1 : (handle_commitment db user raw d true false).1.events =
      db.events ++ [mkCommitmentRecord db user raw cd] := by
    simp [handle_commitment, hv]
  have h2 : get_history (handle_commitment db user raw d true false).1 user 50 =
      mkCommitmentRecord db user raw cd ::
        ((db.events.filter (fun e => e.user_id == user)).reverse.take 49) := by
    rw [get_history, h1, List.filter_append]
    simp [mkCommitmentRecord]
  refine ⟨by simp [handle_commitment, hv, mkCommitmentRecord], h1, ?_, ?_⟩
  · rw [h2]
    rfl
  · rw [h2]
    exact List.mem_cons_self _ _

/-- C4 witness: a concrete commitment with a failing mirror step taken
through the theorem. -/
theorem commitment_mirror_failure_isolated_witness :
    CommitmentData.validate { description := some "dinner", amount := some 2500 } =
      Except.ok { description := "dinner", amount := 2500, date := none }
  ∧ (handle_commitment DB.empty "u1" "dinner 2500"
      { description := some "dinner", amount := some 2500 } true false).1.events.length = 1 := by
  have h := commitment_mirror_failure_isolated DB.empty "u1" "dinner 2500"
    { description := some "dinner", amount := some 2500 }
    { description := "dinner", amount := 2500, date := none } rfl
  refine ⟨rfl, ?_⟩
  rw [h.2.1]
  rfl

/-- C5: the balance handler issues the event append and the balance upsert
inside one transaction: on a successful commit both writes are visible (the
BALANCE_UPDATE event is appended and the balance row holds the new value and
timestamp), and on a storage error nothing at all is persisted and the error
propagates as a failure of the request. -/
theorem balance_update_transactional (db : DB) (user raw : String) (d : PyDict)
    (now : ℤ) (bd : BalanceData) (hv : BalanceData.validate d = Except.ok bd) :
    (handle_balance_update db user raw d now true).1.events =
      db.events ++ [mkBalanceRecord db user raw bd]
  ∧ lookupBalance (handle_balance_update db user raw d now true).1 user =
      some { user_id := user, current_balance := bd.balance, last_updated := now }
  ∧ (handle_balance_update db user raw d now true).2 =
      Except.ok { success := true,
                  message := "Balance updated to $" ++ fmtMoney bd.balance,
                  data := some (.balanceUpd db.nextId bd.balance) }
  ∧ (handle_balance_update db user raw d now false).1 = db
  ∧ (∃ e, (handle_balance_update db user raw d now false).2 = Except.error e) := by
  refine ⟨?_, ?_, ?_, ?_, "storage error", ?_⟩
  · simp [handle_balance_update, hv, upsertBalance_events]
  · simp only [handle_balance_update, hv]
    exact lookupBalance_upsert_self _ user bd.balance now
  · simp [handle_balance_update, hv, mkBalanceRecord]
  · simp [handle_balance_update, hv]
  · simp [handle_balance_update, hv]

/-- C5 witness: a concrete balance update taken through the theorem, both
the committed and the rolled-back run. -/
theorem balance_update_transactional_witness :
    BalanceData.validate { balance := some 4000 } = Except.ok { balance := 4000 }
  ∧ (handle_balance_update DB.empty "u1" "balance 4000"
      { balance := some 4000 } 5 false).1 = DB.empty
  ∧ lookupBalance (handle_balance_update DB.empty "u1" "balance 4000"
      { balance := some 4000 } 5 true).1 "u1" =
      some { user_id := "u1", current_balance := 4000, last_updated := 5 } := by
  have h := balance_update_transactional DB.empty "u1" "balance 4000"
    { balance := some 4000 } 5 { balance := 4000 } rfl
  exact ⟨rfl, h.2.2.2.1, h.2.1⟩

/-- C1: after any sequence of handled inputs, the stored current balance of
every user equals the amount of the most recent BALANCE_UPDATE event of that
user, or 0 when there is none; in particular processing balance 5000 and then
balance 3000 for the same user leaves current_balance 3000 and exactly two
BALANCE_UPDATE entries in the event history. -/
theorem balance_reflects_last_update :
    (∀ (inputs : List StepInput) (user : String),
      currentBalanceOf (runInputs inputs) user =
        lastBalanceAmount (runInputs inputs).events user)
  ∧ currentBalanceOf (runInputs
      [⟨"u1", "balance is 5000", {}⟩, ⟨"u1", "balance is 3000", {}⟩]) "u1" = 3000
  ∧ ((runInputs [⟨"u1", "balance is 5000", {}⟩,
      ⟨"u1", "balance is 3000", {}⟩]).events.filter (buFilter "u1")).length = 2 := by
  refine ⟨?_, rfl, rfl⟩
  have main : ∀ (l : List StepInput) (db : DB),
      (∀ u, currentBalanceOf db u = lastBalanceAmount db.events u) →
      ∀ u, currentBalanceOf (l.foldl stepDB db) u =
        lastBalanceAmount (l.foldl stepDB db).events u := by
    intro l
    induction l with
    | nil => exact fun db h u => h u
    | cons i t ih =>
        intro db h u
        exact ih (stepDB db i) (fun w => stepDB_preserves db i h w) u
  exact fun inputs user => main inputs DB.empty (fun u => rfl) user

/-- C10: every row of the upcoming-commitments query has a present
commitment date, so a COMMITMENT event with an absent (NULL) date is
excluded and never feeds the affordability arithmetic; the fallback
classifier always emits commitments with an absent date, so a commitment
produced by it leaves the upcoming query unchanged. -/
theorem dateless_commitments_excluded :
    (∀ (db : DB) (user : String) (now : ℤ) (e : FinancialRecord),
      e ∈ upcomingQuery db user now → e.commitment_date.isSome = true)
  ∧ (∀ text : String,
      containsAny (pyLower text) balanceKeywords = false →
      containsAny (pyLower text) questionKeywords = false →
      (fallback_classification text).extracted_data.date = none)
  ∧ (∀ (db : DB) (user raw text : String) (co mo : Bool) (now : ℤ),
      containsAny (pyLower text) balanceKeywords = false →
      containsAny (pyLower text) questionKeywords = false →
      upcomingQuery (handle_commitment db user raw
        (fallback_classification text).extracted_data co mo).1 user now =
        upcomingQuery db user now) := by
  refine ⟨?_, ?_, ?_⟩
  · intro db user now e he
    have h1 : e ∈ sortByDate (db.events.filter (upcomingFilter user now)) :=
      List.mem_of_mem_take he
    have h2 : e ∈ db.events.filter (upcomingFilter user now) :=
      (mem_sortByDate e _).mp h1
    have h3 : upcomingFilter user now e = true := List.of_mem_filter h2
    cases hd : e.commitment_date with
    | some d => simp [hd]
    | none => simp [upcomingFilter, hd] at h3
  · intro text hb hq
    simp [fallback_classification, hb, hq]
  · intro db user raw text co mo now hb hq
    have hdict : (fallback_classification text).extracted_data.date = none := by
      simp [fallback_classification, hb, hq]
    cases hv : CommitmentData.validate (fallback_classification text).extracted_data with
    | error e => simp [handle_commitment, hv]
    | ok cd =>
        have hdate : cd.date = none := by rw [validate_date _ _ hv, hdict]
        cases co with
        | false => simp [handle_commitment, hv]
        | true =>
            cases mo <;>
              simp [handle_commitment, hv, upcomingQuery, List.filter_append,
                upcomingFilter, mkCommitmentRecord, hdate]

/-- C10 witness: a dated commitment is a member of the upcoming query and
the theorem yields its present date; a dateless fallback text taken through
the other parts. -/
theorem dateless_commitments_excluded_witness :
    FinancialRecord.mk 1 "u1" InputType.FINANCIAL_COMMITMENT (some "trip") (some 50)
      (some 10) none none "trip 50" none ∈
      upcomingQuery (DB.mk [FinancialRecord.mk 1 "u1" InputType.FINANCIAL_COMMITMENT
        (some "trip") (some 50) (some 10) none none "trip 50" none] [] 2) "u1" 0
  ∧ (FinancialRecord.mk 1 "u1" InputType.FINANCIAL_COMMITMENT (some "trip") (some 50)
      (some 10) none none "trip 50" none).commitment_date.isSome = true
  ∧ containsAny (pyLower "concert tickets 120") balanceKeywords = false
  ∧ (fallback_classification "concert tickets 120").extracted_data.date = none := by
  have hmem : FinancialRecord.mk 1 "u1" InputType.FINANCIAL_COMMITMENT (some "trip")
      (some 50) (some 10) none none "trip 50" none ∈
      upcomingQuery (DB.mk [FinancialRecord.mk 1 "u1" InputType.FINANCIAL_COMMITMENT
        (some "trip") (some 50) (some 10) none none "trip 50" none] [] 2) "u1" 0 := by
    decide
  exact ⟨hmem, dateless_commitments_excluded.1 _ "u1" 0 _ hmem, rfl,
    dateless_commitments_excluded.2.1 "concert tickets 120" rfl rfl⟩

set_option maxRecDepth 8000 in
/-- C9: the reference embedding generator returns a vector of 768 numbers
whose value does not depend on the incoming RNG state (the hash of the text
reseeds the stream, so equal texts give equal vectors), and whenever the raw
768 draws are not all zero the returned vector has unit Euclidean norm. -/
theorem embedding_deterministic_unit_norm
    (sha256Int : String → ℕ) (randn : ℕ → ℕ → ℝ) (s₁ s₂ : ℕ) (text : String) :
    (generate_embedding sha256Int randn s₁ text).1 =
      (generate_embedding sha256Int randn s₂ text).1
  ∧ (generate_embedding sha256Int randn s₁ text).1.length = 768
  ∧ ((∑ i : Fin 768, randn (sha256Int text % 2 ^ 32) i.val ^ 2) ≠ 0 →
      normSqR (generate_embedding sha256Int randn s₁ text).1 = 1) := by
  have hv : (generate_embedding sha256Int randn s₁ text).1 =
      embeddingVec sha256Int randn text := by
    simp only [generate_embedding]
  refine ⟨by simp only [generate_embedding], ?_, fun hS => ?_⟩
  · rw [hv]
    simp only [embeddingVec]
    rw [List.length_ofFn]
  have hS0 : (0 : ℝ) ≤ ∑ i : Fin 768, randn (sha256Int text % 2 ^ 32) i.val ^ 2 :=
    Finset.sum_nonneg fun i _ => sq_nonneg _
  have hsq : Real.sqrt (∑ i : Fin 768, randn (sha256Int text % 2 ^ 32) i.val ^ 2) ^ 2
      = ∑ i : Fin 768, randn (sha256Int text % 2 ^ 32) i.val ^ 2 := Real.sq_sqrt hS0
  rw [hv]
  simp only [embeddingVec, normSqR, List.map_ofFn]
  rw [List.sum_ofFn]
  simp only [Function.comp, div_pow]
  rw [← Finset.sum_div, hsq]
  exact div_self hS

/-- C9 witness: the all-ones sampler taken through the theorem. -/
theorem embedding_deterministic_unit_norm_witness :
    ((∑ i : Fin 768, (fun _ _ => (1 : ℝ)) ((fun _ : String => 0) "x" % 2 ^ 32) i.val ^ 2) ≠ 0)
  ∧ normSqR (generate_embedding (fun _ => 0) (fun _ _ => (1 : ℝ)) 0 "x").1 = 1 := by
  have h1 : (∑ _i : Fin 768, ((1 : ℝ)) ^ 2) ≠ 0 := by
    simp only [one_pow, Finset.sum_const, Finset.card_univ, Fintype.card_fin,
      nsmul_eq_mul, mul_one]
    norm_num
  exact ⟨h1, (embedding_deterministic_unit_norm (fun _ => 0) (fun _ _ => 1) 0 0 "x").2.2 h1⟩

end FinAssist
